import Mathlib

/-!
Verification of the `solution.forms` field/validator pipeline.

This file is a shallow embedding of `src/solution/forms/fields.py` and the
parts of `src/solution/forms/validators.py` that the fields use.  Python
runtime values are modelled by the inductive type `PyVal`, Python exceptions
by `PyExc`, and fallible Python calls by `Except PyExc`.  Each embedded
definition carries a comment pointing at the source construct it translates.
-/

namespace Forms

/-- Model of the Python runtime values that flow through the forms library:
None, unicode strings, booleans, floats, lists, and `ValidationError`
objects used as values (the File field coercion returns one).  A Python
float produced by this library is always the value of a finite decimal
literal, so it is represented exactly as a scaled integer: `num m d`
denotes the float `m / 10 ^ d`. -/
inductive PyVal where
  | none
  | str (s : String)
  | bool (b : Bool)
  | num (m : Int) (d : Nat)
  | listV (xs : List PyVal)
  | verror (code msg : String)

/-- Model of Python exceptions relevant here. -/
inductive PyExc where
  | nameError (msg : String)
  | typeError (msg : String)
deriving DecidableEq

/-- Python truthiness (`bool(v)`): None, empty strings, zero and empty lists
are falsy; a plain object such as a `ValidationError` is truthy. -/
def PyVal.truthy : PyVal → Bool
  | .none => false
  | .str s => !s.data.isEmpty
  | .bool b => b
  | .num m _ => m != 0
  | .listV xs => !xs.isEmpty
  | .verror _ _ => true

/-- Python `v is None`. -/
def PyVal.isNone : PyVal → Bool
  | .none => true
  | _ => false

mutual

/-- Model of Python `==` on the values above.  Python numeric equality is
value equality across bool/float (`True == 1.0`), modelled by comparing the
scaled representations.  Two `ValidationError` objects are compared by
content (Python would compare by identity, but the validation code never
compares them, so the case is unreachable). -/
def PyVal.beq : PyVal → PyVal → Bool
  | .none, .none => true
  | .str a, .str b => a == b
  | .bool a, .bool b => a == b
  | .bool a, .num m d => (if a then (1 : Int) else 0) * (10 : Int) ^ d == m
  | .num m d, .bool a => m == (if a then (1 : Int) else 0) * (10 : Int) ^ d
  | .num m1 d1, .num m2 d2 => m1 * (10 : Int) ^ d2 == m2 * (10 : Int) ^ d1
  | .listV as, .listV bs => PyVal.beqList as bs
  | .verror c1 m1, .verror c2 m2 => c1 == c2 && m1 == m2
  | _, _ => false

/-- Elementwise Python `==` on lists. -/
def PyVal.beqList : List PyVal → List PyVal → Bool
  | [], [] => true
  | a :: as, b :: bs => PyVal.beq a b && PyVal.beqList as bs
  | _, _ => false

end

/-- Model of `ValidationError` (`fields.py`, class ValidationError): a
machine-readable code paired with a display message. -/
structure VError where
  code : String
  message : String
deriving DecidableEq

/-- Python `unicode.strip()` on the character list of a string: drop leading
and trailing whitespace. -/
def charsTrim (cs : List Char) : List Char :=
  ((cs.dropWhile Char.isWhitespace).reverse.dropWhile Char.isWhitespace).reverse

/-- Python `unicode.strip()`. -/
def strTrim (s : String) : String :=
  String.mk (charsTrim s.data)

/-- Value of a list of decimal digit characters. -/
def digitsVal (cs : List Char) : Nat :=
  cs.foldl (fun n c => 10 * n + (c.toNat - 48)) 0

/-- Model of `int(s, 10)` on the nonnegative digit strings that the color
regex hands to `_normalize_rgb`: `some` of the value when the string is a
nonempty run of decimal digits, `none` otherwise.  (On other strings Python
`int` raises; the only caller passes strings captured by `[0-9]+`, so that
case is unreachable and is modelled as `none`.) -/
def decDigits? (s : String) : Option Nat :=
  if s.data.isEmpty then Option.none
  else if s.data.all Char.isDigit then Option.some (digitsVal s.data)
  else Option.none

/-- Model of the Python builtin `float(text)` on decimal literals: optional
surrounding whitespace, an optional sign, then digits with an optional
fractional part.  The result `(m, d)` denotes `m / 10 ^ d`.  Exponent,
infinity and nan spellings are not modelled: the validated inputs in scope
never use them. -/
def parseFloatChars (cs0 : List Char) : Option (Int × Nat) :=
  let cs1 := charsTrim cs0
  let sign : Int := if cs1.headD ' ' = '-' then -1 else 1
  let cs := if cs1.headD ' ' = '-' || cs1.headD ' ' = '+' then cs1.tail else cs1
  let ip := cs.takeWhile Char.isDigit
  let rest := cs.dropWhile Char.isDigit
  match rest with
  | [] =>
    if ip.isEmpty then Option.none
    else Option.some (sign * Int.ofNat (digitsVal ip), 0)
  | c :: r =>
    if c = '.' then
      let fp := r.takeWhile Char.isDigit
      let tail := r.dropWhile Char.isDigit
      if tail.isEmpty then
        if ip.isEmpty && fp.isEmpty then Option.none
        else Option.some (sign * Int.ofNat (digitsVal (ip ++ fp)), fp.length)
      else Option.none
    else Option.none

/-- Model of `float(python_value)` as used by `IsNumber.__call__` and
`_Number.to_python`: floats and booleans convert, strings are parsed, and
None/lists/error objects make `float` raise, which every caller catches, so
those are `none`. -/
def pyFloat? : PyVal → Option (Int × Nat)
  | .num m d => Option.some (m, d)
  | .bool b => Option.some (if b then 1 else 0, 0)
  | .str s => parseFloatChars s.data
  | _ => Option.none

/-- Model of a validator object (`validators.py`).  `check` is `__call__`;
`codeAfter v` is the value of the `code` attribute as read immediately after
a call on `v` — constant for every validator except `InRange`, which
assigns `too_small` or `too_big` to `self.code` during a failed call.
`isForm` marks `FormValidator` subclasses, which value-level validation
skips. -/
structure Validator where
  isForm : Bool
  check : PyVal → Bool
  codeAfter : PyVal → String
  message : String

/-- Model of `Required()` (`validators.py`): true iff the value is truthy. -/
def requiredValidator : Validator :=
  { isForm := false
    check := PyVal.truthy
    codeAfter := fun _ => "required"
    message := "This field is required." }

/-- Model of `IsNumber()` (`validators.py`): true iff `float(value)` does
not raise. -/
def isNumberValidator : Validator :=
  { isForm := false
    check := fun v => (pyFloat? v).isSome
    codeAfter := fun _ => "invalid"
    message := "Enter a number." }

/-- A `FormValidator` instance (for example `AreEqual`) as seen by
value-level validation: it is skipped there no matter what its check would
say, so its check is modelled as constantly false to make the skipping
observable. -/
def sampleFormValidator : Validator :=
  { isForm := true
    check := fun _ => false
    codeAfter := fun _ => "not_equal"
    message := "The fields do not match." }

/-- Model of the mutable state of one `_Field` instance: `rawValue` is
`self._value`, and the remaining fields are the attributes of the same
names (`python_value`, `original_value`, `error`, `has_changed`,
`optional`, `validators`). -/
structure FieldState where
  rawValue : PyVal
  pythonValue : PyVal
  originalValue : PyVal
  error : Option VError
  hasChanged : Bool
  optional : Bool
  validators : List Validator

/-- Model of `_Field._set_value` (`fields.py` lines 91-98): a list input is
replaced by its first element (or the empty string when the list is empty),
None becomes the empty string, and a string result is stripped. -/
def set_value (value : PyVal) : PyVal :=
  let v1 :=
    match value with
    | PyVal.listV [] => PyVal.str ""
    | PyVal.listV (x :: _) => x
    | PyVal.none => PyVal.str ""
    | v => v
  match v1 with
  | PyVal.str s => PyVal.str (strTrim s)
  | v => v

/-- Model of `_Field._validate_value` (`fields.py` lines 133-140): walk the
validators in declaration order, skip `FormValidator` instances, and at the
first validator whose call returns false produce a `ValidationError` from
that validator and stop; `none` when every (non-form) validator passes. -/
def validate_value : List Validator → PyVal → Option VError
  | [], _ => Option.none
  | val :: rest, pv =>
    if val.isForm then validate_value rest pv
    else if val.check pv then validate_value rest pv
    else Option.some ⟨val.codeAfter pv, val.message⟩

/-- Model of `_Field.validate(cleaned_data=None)` (`fields.py` lines
113-131), the value-level phase, parameterised by the result of the
variant-specific `self.to_python()` call (which may raise) and the
variant-specific `self.clean_value` hook.  Mirrors the source line by line:
reset `error`; `python_value = self.to_python() or self.python_value`;
`python_value = self.clean_value(python_value)`; a `ValidationError` result
becomes `error`; recompute `has_changed`; a None value of an optional field
validates trivially; otherwise run `_validate_value`. -/
def validate (f : FieldState) (toPythonResult : Except PyExc PyVal)
    (cleanValue : PyVal → PyVal) : Except PyExc FieldState :=
  let f0 := { f with error := Option.none }
  match toPythonResult with
  | Except.error e => Except.error e
  | Except.ok tp =>
    let pv := cleanValue (if tp.truthy then tp else f0.pythonValue)
    match pv with
    | PyVal.verror c m => Except.ok { f0 with error := Option.some ⟨c, m⟩ }
    | pv2 =>
      let f1 := { f0 with hasChanged := !PyVal.beq pv2 f0.originalValue }
      if pv2.isNone && f1.optional then Except.ok f1
      else Except.ok { f1 with error := validate_value f1.validators pv2 }

/-- Model of `_Field.to_python` (`fields.py` lines 105-108): None when the
raw value is falsy, otherwise the raw value itself. -/
def field_to_python (f : FieldState) : Except PyExc PyVal :=
  Except.ok (if f.rawValue.truthy then f.rawValue else PyVal.none)

/-- Model of `_Number.to_python` (`fields.py` lines 290-294):
`float(self._value)` with every exception turned into None. -/
def number_to_python (f : FieldState) : Except PyExc PyVal :=
  Except.ok
    (match pyFloat? f.rawValue with
     | Option.some (m, d) => PyVal.num m d
     | Option.none => PyVal.none)

/-- Model of `_Date.to_python` (`fields.py` lines 361-368).  The source
defines it as `def to_python(locale=None):` — without a `self` parameter —
so the bound call `self.to_python()` binds the instance to `locale` and the
first use of the unbound name `self` in the body raises `NameError`, for
every instance and every raw value. -/
def date_to_python (_f : FieldState) : Except PyExc PyVal :=
  Except.error (PyExc.nameError "global name self is not defined")

/-- Model of `_Boolean.to_python` (`fields.py` lines 522-525).  The source
defines it as `def to_python(self, value):` with a mandatory `value`
parameter, but `validate` calls `self.to_python()` with no argument, so the
call raises `TypeError` before the body runs, for every instance and every
raw value. -/
def boolean_to_python (_f : FieldState) : Except PyExc PyVal :=
  Except.error (PyExc.typeError "to_python() takes exactly 2 arguments (1 given)")

/-- Model of `_Color.to_python` (`fields.py` lines 421-430).  The source
defines it as `def to_python():` with no parameters at all, so the bound
call `self.to_python()` raises `TypeError` before the body runs, for every
instance and every raw value. -/
def color_to_python (_f : FieldState) : Except PyExc PyVal :=
  Except.error (PyExc.typeError "to_python() takes no arguments (1 given)")

/-- Model of `_File.to_python` (`fields.py` lines 483-491): a falsy raw
value yields the original value; with no upload callback the raw value
passes through; otherwise the callback runs and any exception it raises
(modelled as `Except.error` with the message `str(e)`) is caught and turned
into the value `ValidationError(invalid_file, str(e))`. -/
def file_to_python (f : FieldState)
    (upload : Option (PyVal → Except String PyVal)) : Except PyExc PyVal :=
  if f.rawValue.truthy then
    match upload with
    | Option.none => Except.ok f.rawValue
    | Option.some up =>
      match up f.rawValue with
      | Except.ok v => Except.ok v
      | Except.error e => Except.ok (PyVal.verror "invalid_file" e)
  else Except.ok f.originalValue

/-- Value-level `validate()` of a `_Date` field. -/
def date_validate (f : FieldState) : Except PyExc FieldState :=
  validate f (date_to_python f) id

/-- Value-level `validate()` of a `_Boolean` field. -/
def boolean_validate (f : FieldState) : Except PyExc FieldState :=
  validate f (boolean_to_python f) id

/-- Value-level `validate()` of a `_Color` field. -/
def color_validate (f : FieldState) : Except PyExc FieldState :=
  validate f (color_to_python f) id

/-- Value-level `validate()` of a `_Number` field. -/
def number_validate (f : FieldState) : Except PyExc FieldState :=
  validate f (number_to_python f) id

/-- Value-level `validate()` of a `_File` field with the given upload
callback. -/
def file_validate (f : FieldState)
    (upload : Option (PyVal → Except String PyVal)) : Except PyExc FieldState :=
  validate f (file_to_python f upload) id

/-- A field state as produced by `_Field._init(data=raw)` with no original
value: the setter normalises the raw data, `python_value` and
`original_value` are None, and `error` is cleared. -/
def mkFieldState (raw : PyVal) (vs : List Validator) (opt : Bool) : FieldState :=
  { rawValue := set_value raw
    pythonValue := PyVal.none
    originalValue := PyVal.none
    error := Option.none
    hasChanged := false
    optional := opt
    validators := vs }

/-- A `_Number` field as built by the factory: `_Number(Required())` ends up
with validators `[Required(), IsNumber()]` because `_Text.__init__` appends
the default validator when absent, and `optional` is false exactly when a
`Required` validator was passed. -/
def mkNumberField (required : Bool) (raw : PyVal) : FieldState :=
  mkFieldState raw
    (if required then [requiredValidator, isNumberValidator] else [isNumberValidator])
    (!required)

/-- Doubling of one hex character, `hc[i] * 2` in the source. -/
def dupChar (c : Char) : String :=
  String.mk [c, c]

/-- Python `%02x` formatting of a byte value: lowercase hexadecimal, padded
to two digits. -/
def hex2 (n : Nat) : String :=
  let s := Nat.toDigits 16 n
  String.mk (if s.length = 1 then '0' :: s else s)

/-- Model of `_Color._normalize_hex` (`fields.py` lines 432-444): a 3/4/6/8
character hex string is lowercased; 6 or more characters are returned with
a leading `#`; 3 or 4 characters have each character doubled, the fourth
(alpha) kept last; any other length gives None. -/
def normalize_hex (hc : String) : Option String :=
  let cs := hc.data
  let lhc := cs.length
  if lhc = 3 ∨ lhc = 4 ∨ lhc = 6 ∨ lhc = 8 then
    let lc := cs.map Char.toLower
    if 6 ≤ lhc then Option.some (String.mk ('#' :: lc))
    else
      match lc with
      | c0 :: c1 :: c2 :: rest =>
        let nhc := "#" ++ dupChar c0 ++ dupChar c1 ++ dupChar c2
        match rest with
        | [c3] => Option.some (nhc ++ dupChar c3)
        | _ => Option.some nhc
      | _ => Option.none
  else Option.none

/-- Model of `_Color._normalize_rgb` (`fields.py` lines 446-459): the three
channel strings (and the optional alpha string) are read as base-10
integers; any channel above 255 (alpha included, when present and nonzero)
gives None; otherwise the channels are formatted as lowercase `#rrggbb`,
with the alpha appended only when it is truthy (nonzero).  An empty or
absent alpha string is skipped exactly as the truthiness tests `if a:` and
`a and a > 255` skip it in the source. -/
def normalize_rgb (r g b : String) (a : Option String) : Option String :=
  match decDigits? r, decDigits? g, decDigits? b with
  | Option.some rn, Option.some gn, Option.some bn =>
    let an : Option Nat :=
      match a with
      | Option.none => Option.none
      | Option.some s => if s.data.isEmpty then Option.none else decDigits? s
    let aFail : Bool :=
      match an with
      | Option.some n => decide (255 < n)
      | Option.none => false
    if 255 < rn ∨ 255 < gn ∨ 255 < bn ∨ aFail = true then Option.none
    else
      let color := "#" ++ hex2 rn ++ hex2 gn ++ hex2 bn
      Option.some
        (match an with
         | Option.some n => if n = 0 then color else color ++ hex2 n
         | Option.none => color)
  | _, _, _ => Option.none

/-- Model of `_SelectMulti._set_value` (`fields.py` lines 661-664): a list
is stored as is; anything else — None included — is wrapped in a singleton
list.  No stripping and no None-to-empty-string normalisation happens. -/
def selectmulti_set_value (value : PyVal) : PyVal :=
  match value with
  | PyVal.listV xs => PyVal.listV xs
  | v => PyVal.listV [v]

/-- The characters of a string as a Python list of one-character strings:
the value of `list(s)`. -/
def charsOf (s : String) : List PyVal :=
  s.data.map (fun c => PyVal.str (String.mk [c]))

/-- Model of `_Collection._set_value` (`fields.py` lines 785-786), which is
`self._value = list(value)`: a list is copied, a string becomes the list of
its characters, and None (or any other non-iterable) makes `list` raise
`TypeError`. -/
def collection_set_value : PyVal → Except PyExc PyVal
  | PyVal.str s => Except.ok (PyVal.listV (charsOf s))
  | PyVal.listV xs => Except.ok (PyVal.listV xs)
  | PyVal.none => Except.error (PyExc.typeError "NoneType object is not iterable")
  | PyVal.bool _ => Except.error (PyExc.typeError "bool object is not iterable")
  | PyVal.num _ _ => Except.error (PyExc.typeError "float object is not iterable")
  | PyVal.verror _ _ => Except.error (PyExc.typeError "ValidationError object is not iterable")

/-- Model of `_Collection.clean_value` (`fields.py` lines 794-807).  The
source first builds the string `r'/s*%s/s*' % self.sep.replace(' ', '')`
and then never uses it — the separator regex is dead code and so is not
a parameter here.  `values = python_value or []` keeps a truthy list and
turns a falsy value into the empty list (a truthy non-list value never
reaches this hook, because the Collection setter always stores a list; that
unreachable case is modelled as the empty list as well).  Each filter keeps
the values it accepts, and the optional cleaner drops every value on which
it raises. -/
def collection_clean_value (filters : List (PyVal → Bool))
    (cleanFn : Option (PyVal → Except String PyVal)) (python_value : PyVal) : PyVal :=
  let values : List PyVal :=
    match python_value with
    | PyVal.listV l => l
    | _ => []
  let vals := filters.foldl (fun vs f => vs.filter f) values
  PyVal.listV
    (match cleanFn with
     | Option.none => vals
     | Option.some cf =>
       vals.filterMap (fun x =>
         match cf x with
         | Except.ok w => Option.some w
         | Except.error _ => Option.none))

/-- A Collection field state whose raw value is the stored `list(raw)` of a
loaded raw string. -/
def mkCollectionFieldState (raw : String) : FieldState :=
  { rawValue := PyVal.listV (charsOf raw)
    pythonValue := PyVal.none
    originalValue := PyVal.none
    error := Option.none
    hasChanged := false
    optional := true
    validators := [] }

/-- Raw submitted inputs as the spec describes them: a string, a list of
strings, or null. -/
def isRawInput : PyVal → Bool
  | PyVal.none => true
  | PyVal.str _ => true
  | PyVal.listV xs =>
    xs.all (fun x =>
      match x with
      | PyVal.str _ => true
      | _ => false)
  | _ => false

/-- A value is a trimmed string when it is the string result of stripping
some string. -/
def isTrimmedStr (v : PyVal) : Prop :=
  ∃ t : String, v = PyVal.str (strTrim t)

/-- A value is a list of strings. -/
def isStrList : PyVal → Bool
  | PyVal.listV xs =>
    xs.all (fun x =>
      match x with
      | PyVal.str _ => true
      | _ => false)
  | _ => false

/-- Model of the values a keyword argument of `_get_html_attrs` can hold:
strings, booleans (rendered as bare properties) and integers such as the
`data_id: 1` of the docstring example. -/
inductive AttrVal where
  | str (s : String)
  | boolean (b : Bool)
  | int (n : Int)
deriving DecidableEq

/-- Byte-order comparison of character lists, the Python 2 comparison used
by `list.sort()` on the attribute strings. -/
def charsLe : List Char → List Char → Bool
  | [], _ => true
  | _ :: _, [] => false
  | a :: as, b :: bs =>
    if a.toNat < b.toNat then true
    else if b.toNat < a.toNat then false
    else charsLe as bs

/-- String comparison for sorting attribute strings. -/
def strLe : String → String → Prop :=
  fun a b => charsLe a.data b.data = true

instance : DecidableRel strLe :=
  fun a b => inferInstanceAs (Decidable (charsLe a.data b.data = true))

/-- Model of `list.sort()` on strings. -/
def sortStrings (l : List String) : List String :=
  List.insertionSort strLe l

/-- Escaping of one character as done by `xml.sax.saxutils.quoteattr`
(an external collaborator of the core): the markup characters and the
whitespace control characters become character references. -/
def escChar (c : Char) : List Char :=
  if c = '&' then "&amp;".data
  else if c = '<' then "&lt;".data
  else if c = '>' then "&gt;".data
  else if c = '\n' then "&#10;".data
  else if c = '\r' then "&#13;".data
  else if c = '\t' then "&#9;".data
  else [c]

/-- Model of `xml.sax.saxutils.quoteattr`: escape the value, then wrap it
in double quotes — or in single quotes when it contains a double quote, or
in double quotes with `&quot;` when it contains both kinds of quote. -/
def quoteattr (s : String) : String :=
  let d := (s.data.map escChar).flatten
  if d.contains '"' then
    if d.contains (Char.ofNat 39) then
      String.mk ('"' :: (d.map (fun c => if c = '"' then "&quot;".data else [c])).flatten ++ ['"'])
    else String.mk (Char.ofNat 39 :: d ++ [Char.ofNat 39])
  else String.mk ('"' :: d ++ ['"'])

/-- Whitespace collapsing of the `classes` value (`fields.py` lines
169-171): strip, split on whitespace runs, and rejoin with single
spaces. -/
def collapseClasses (s : String) : String :=
  let parts := (charsTrim s.data).splitOnP Char.isWhitespace
  String.intercalate " " ((parts.filter (fun p => !p.isEmpty)).map String.mk)

/-- Underscore-to-dash translation of an attribute key. -/
def keyDash (k : String) : String :=
  String.mk (k.data.map (fun c => if c = '_' then '-' else c))

/-- Model of `_Field._get_html_attrs` (`fields.py` lines 150-192).  The
keyword-argument dict is modelled as an association list with distinct
keys.  A truthy `classes` value becomes a `class` attribute with collapsed
whitespace (a non-string `classes` value would raise in Python — a
programmer error — and is treated as absent); the `classes` key is then
deleted.  Every other key has underscores replaced by dashes; boolean True
values are collected as bare properties, booleans False are dropped, and
the rest render as `key="escaped value"`.  Attributes are sorted, then
properties are sorted and appended, and everything is joined with
spaces.  The pieces are the next four definitions; `get_html_attrs`
assembles them.  This definition is the `classes` handling (`fields.py`
lines 169-177). -/
def htmlClasses (kwargs : List (String × AttrVal)) : List String :=
  match kwargs.lookup "classes" with
  | Option.some (AttrVal.str s) =>
    if (strTrim s).data.isEmpty then []
    else ["class=" ++ quoteattr (collapseClasses s)]
  | _ => []

/-- The keyword arguments left after `del kwargs[classes]`. -/
def htmlRest (kwargs : List (String × AttrVal)) : List (String × AttrVal) :=
  kwargs.filter (fun kv => !(kv.1 == "classes"))

/-- The `attrs` list of `_get_html_attrs` before sorting: the `class`
attribute, then each non-boolean keyword rendered as
`key="escaped value"` with underscores turned into dashes. -/
def htmlAttrs (kwargs : List (String × AttrVal)) : List String :=
  htmlClasses kwargs ++
    (htmlRest kwargs).filterMap (fun kv =>
      match kv.2 with
      | AttrVal.boolean _ => Option.none
      | AttrVal.str s => Option.some (keyDash kv.1 ++ "=" ++ quoteattr s)
      | AttrVal.int n => Option.some (keyDash kv.1 ++ "=" ++ quoteattr (toString n)))

/-- The `props` list of `_get_html_attrs` before sorting: the keys whose
value is the boolean True. -/
def htmlProps (kwargs : List (String × AttrVal)) : List String :=
  (htmlRest kwargs).filterMap (fun kv =>
    match kv.2 with
    | AttrVal.boolean b => if b then Option.some (keyDash kv.1) else Option.none
    | _ => Option.none)

/-- Model of the final lines of `_get_html_attrs`: `attrs.sort()`,
`props.sort()`, `attrs.extend(props)`, space-join. -/
def get_html_attrs (kwargs : List (String × AttrVal)) : String :=
  String.intercalate " " (sortStrings (htmlAttrs kwargs) ++ sortStrings (htmlProps kwargs))

/-- Model of one validator object on the heap, with the mutable `code`
attribute that `InRange.__call__` reassigns on failure. -/
structure ValObj where
  code : String
  message : String
deriving DecidableEq

/-- One positional argument of a field factory: either a validator class
(`inspect.isclass(val)` true, so `make` instantiates a fresh object from
the prototype) or an already-constructed validator instance, passed by
reference. -/
inductive FactoryArg where
  | cls (proto : ValObj)
  | inst (addr : Nat)
deriving DecidableEq

/-- Heap of validator objects; addresses are list indices and allocation
appends. -/
structure Store where
  objs : List ValObj
deriving DecidableEq

/-- Mutation of the object at an address (for example `InRange` assigning
`self.code` during a call). -/
def Store.set (s : Store) (a : Nat) (o : ValObj) : Store :=
  ⟨s.objs.set a o⟩

/-- Model of a field factory (`fields.py` lines 813-823): it captures its
constructor arguments. -/
structure Factory where
  args : List FactoryArg
  kwargs : List (String × String)
deriving DecidableEq

/-- Model of one made field instance, keeping the parts relevant to
sharing: the list of references to its validator objects and its own
`extra` mapping. -/
structure FieldInst where
  validators : List Nat
  extra : List (String × String)
deriving DecidableEq

/-- Model of the list comprehension in `_Field.__init__` (`fields.py` lines
63-65): `[val() if inspect.isclass(val) else val for val in validate]` — a
class argument allocates a fresh object, an instance argument is reused by
reference. -/
def makeValidators : List FactoryArg → Store → List Nat × Store
  | [], s => ([], s)
  | FactoryArg.cls proto :: rest, s =>
    let r := makeValidators rest ⟨s.objs ++ [proto]⟩
    (s.objs.length :: r.1, r.2)
  | FactoryArg.inst a :: rest, s =>
    let r := makeValidators rest s
    (a :: r.1, r.2)

/-- Model of `Field.make` (`fields.py` lines 822-823): build a brand-new
instance from the captured arguments.  The validators list and the `extra`
dict are fresh per call (`**kwargs` packs a new dict), but instance
arguments are shared by reference. -/
def Factory.make (F : Factory) (s : Store) : FieldInst × Store :=
  let r := makeValidators F.args s
  (⟨r.1, F.kwargs⟩, r.2)

/-- Two successive `make()` calls on the same factory: the two instances
and the final heap. -/
def makeTwice (F : Factory) (s : Store) : FieldInst × FieldInst × Store :=
  let r1 := F.make s
  let r2 := F.make r1.2
  (r1.1, r2.1, r2.2)

/-- Observable validator state of an instance: the `code` attribute of each
validator object it references. -/
def FieldInst.observeCodes (fi : FieldInst) (s : Store) : List (Option String) :=
  fi.validators.map (fun a => (s.objs[a]?).map ValObj.code)

/-- True when every factory argument is a validator class (no shared
instances). -/
def allCls (args : List FactoryArg) : Bool :=
  args.all (fun a =>
    match a with
    | FactoryArg.cls _ => true
    | FactoryArg.inst _ => false)

/-- A File field state with a present raw value and a Required validator,
used to exercise the upload paths. -/
def c4Field : FieldState :=
  mkFieldState (PyVal.str "photo.png") [requiredValidator] false

/-- An upload callback that raises. -/
def failingUpload : PyVal → Except String PyVal :=
  fun _ => Except.error "disk full"

/-- An upload callback that succeeds with its input. -/
def okUpload : PyVal → Except String PyVal :=
  fun v => Except.ok v

/-- A required Number field loaded with the raw input `0` over an original
value of `7.0`: `float(0)` is falsy, so validation proceeds on the stored
`python_value`. -/
def c10SampleField : FieldState :=
  { rawValue := set_value (PyVal.str "0")
    pythonValue := PyVal.num 7 0
    originalValue := PyVal.num 7 0
    error := Option.none
    hasChanged := true
    optional := false
    validators := [requiredValidator, isNumberValidator] }

/-- The state `c10SampleField` reaches after value-level validation. -/
def c10Result : FieldState :=
  { c10SampleField with error := Option.none, hasChanged := false }

theorem charsLe_total (a : List Char) : ∀ b, charsLe a b = true ∨ charsLe b a = true := by
  induction a with
  | nil => intro b; exact Or.inl rfl
  | cons x xs ih =>
    intro b
    cases b with
    | nil => exact Or.inr rfl
    | cons y ys =>
      by_cases h1 : x.toNat < y.toNat
      · left; simp [charsLe, h1]
      · by_cases h2 : y.toNat < x.toNat
        · right; simp [charsLe, h2]
        · rcases ih ys with h | h
          · left; simp [charsLe, h1, h2, h]
          · right; simp [charsLe, h1, h2, h]

theorem charsLe_trans (a : List Char) :
    ∀ b c, charsLe a b = true → charsLe b c = true → charsLe a c = true := by
  induction a with
  | nil => intro b c _ _; rfl
  | cons x xs ih =>
    intro b c h1 h2
    cases b with
    | nil => simp [charsLe] at h1
    | cons y ys =>
      cases c with
      | nil => simp [charsLe] at h2
      | cons z zs =>
        simp only [charsLe] at h1 h2 ⊢
        split_ifs at h1 h2 ⊢ <;> try rfl
        all_goals try omega
        all_goals exact ih ys zs h1 h2

theorem charsLe_antisymm (a : List Char) :
    ∀ b, charsLe a b = true → charsLe b a = true → a = b := by
  induction a with
  | nil =>
    intro b _ h2
    cases b with
    | nil => rfl
    | cons y ys => simp [charsLe] at h2
  | cons x xs ih =>
    intro b h1 h2
    cases b with
    | nil => simp [charsLe] at h1
    | cons y ys =>
      simp only [charsLe] at h1 h2
      split_ifs at h1 h2 <;> try omega
      have hxy : x = y := by
        have hv : x.val = y.val := by
          apply UInt32.eq_of_toBitVec_eq
          apply BitVec.eq_of_toNat_eq
          have e1 : Char.toNat x = x.val.toBitVec.toNat := rfl
          have e2 : Char.toNat y = y.val.toBitVec.toNat := rfl
          omega
        exact Char.eq_of_val_eq hv
      rw [hxy, ih ys h1 h2]

instance : IsTotal String strLe :=
  ⟨fun a b => charsLe_total a.data b.data⟩

instance : IsTrans String strLe :=
  ⟨fun a b c h1 h2 => charsLe_trans a.data b.data c.data h1 h2⟩

instance : IsAntisymm String strLe := by
  constructor
  intro a b h1 h2
  cases a with
  | mk da =>
    cases b with
    | mk db => exact congrArg String.mk (charsLe_antisymm da db h1 h2)

theorem lookup_eq_of_perm {β : Type} (a : String) {l1 l2 : List (String × β)}
    (hp : l1.Perm l2) : (l1.map Prod.fst).Nodup → l1.lookup a = l2.lookup a := by
  induction hp with
  | nil => intro _; rfl
  | cons x p ih =>
    intro hnd
    obtain ⟨k, v⟩ := x
    by_cases h : a == k
    · simp [List.lookup, h]
    · simp only [List.lookup, h]
      exact ih (by simpa using hnd.of_cons)
  | swap x y l =>
    intro hnd
    obtain ⟨k1, v1⟩ := x
    obtain ⟨k2, v2⟩ := y
    have hne : k2 ≠ k1 := by
      simp only [List.map, List.nodup_cons, List.mem_cons] at hnd
      exact fun hh => hnd.1 (Or.inl hh)
    by_cases ha1 : a == k1
    · have : ¬(a == k2) := by
        intro hc
        exact hne ((eq_of_beq hc).symm.trans (eq_of_beq ha1))
      simp [List.lookup, ha1, this]
    · by_cases ha2 : a == k2
      · simp [List.lookup, ha1, ha2]
      · simp [List.lookup, ha1, ha2]
  | trans p1 p2 ih1 ih2 =>
    intro hnd
    exact (ih1 hnd).trans (ih2 (((p1.map Prod.fst).nodup_iff).mp hnd))

theorem makeValidators_allCls :
    ∀ (args : List FactoryArg) (s : Store), allCls args = true →
      (makeValidators args s).1 = List.range' s.objs.length args.length ∧
      (makeValidators args s).2.objs.length = s.objs.length + args.length := by
  intro args
  induction args with
  | nil => intro s _; exact ⟨rfl, rfl⟩
  | cons a rest ih =>
    intro s h
    cases a with
    | inst addr => simp [allCls] at h
    | cls proto =>
      have hrest : allCls rest = true := by simpa [allCls] using h
      obtain ⟨ih1, ih2⟩ := ih ⟨s.objs ++ [proto]⟩ hrest
      constructor
      · show s.objs.length :: (makeValidators rest ⟨s.objs ++ [proto]⟩).1 = _
        rw [ih1]
        simp [List.range'_succ]
      · show (makeValidators rest ⟨s.objs ++ [proto]⟩).2.objs.length = _
        rw [ih2]
        simp
        omega

theorem mkNumberField_empty (b : Bool) (s : String) (h : strTrim s = "") :
    mkNumberField b (PyVal.str s) = mkNumberField b (PyVal.str "") := by
  have h0 : strTrim "" = "" := rfl
  simp only [mkNumberField, mkFieldState, set_value, h, h0]

/-- C1: the claim states that `validate()` with no argument never raises,
for every field variant and raw input.  The code violates this:
`_Date.to_python` is defined without a `self` parameter, so calling it
raises NameError, and `_Boolean.to_python` / `_Color.to_python` have the
wrong arity, so calling them raises TypeError — hence value-level
validation of a Date, Boolean or Color field raises for every raw value.
This theorem evaluates the embedded code at concrete inputs. -/
theorem c1_validate_raises_on_date_boolean_color :
    date_validate (mkFieldState (PyVal.str "2012-04-13") [] true)
        = Except.error (PyExc.nameError "global name self is not defined")
  ∧ boolean_validate (mkFieldState (PyVal.str "1") [] true)
        = Except.error (PyExc.typeError "to_python() takes exactly 2 arguments (1 given)")
  ∧ color_validate (mkFieldState (PyVal.str "#abc") [] true)
        = Except.error (PyExc.typeError "to_python() takes no arguments (1 given)") :=
  ⟨rfl, rfl, rfl⟩

/-- C2: a Number field whose raw value is empty or whitespace-only ends
value-level validation with the error code `required` (not `invalid`) when
it was built with a Required validator, and with no error and a None
coerced value when it was built without one. -/
theorem c2_number_empty_input_required_vs_optional (s : String) (h : strTrim s = "") :
    (number_validate (mkNumberField true (PyVal.str s))).map (fun g => g.error)
        = Except.ok (Option.some ⟨"required", "This field is required."⟩)
  ∧ (number_validate (mkNumberField false (PyVal.str s))).map
        (fun g => (g.error, g.pythonValue.isNone))
        = Except.ok (Option.none, true) := by
  rw [mkNumberField_empty true s h, mkNumberField_empty false s h]
  exact ⟨rfl, rfl⟩

/-- Witness for C2 at the whitespace-only raw input of three spaces. -/
theorem c2_number_empty_input_required_vs_optional_witness :
    strTrim "   " = ""
  ∧ ((number_validate (mkNumberField true (PyVal.str "   "))).map (fun g => g.error)
        = Except.ok (Option.some ⟨"required", "This field is required."⟩)
      ∧ (number_validate (mkNumberField false (PyVal.str "   "))).map
            (fun g => (g.error, g.pythonValue.isNone))
            = Except.ok (Option.none, true)) :=
  ⟨rfl, c2_number_empty_input_required_vs_optional "   " rfl⟩

/-- C3: `_validate_value` runs only the non-form-level validators in
declaration order and short-circuits: whenever every earlier non-form
validator passes, the first failing non-form validator determines the
single resulting ValidationError — its own code and message — no matter
what the later validators are; and when every validator passes (or is
form-level) there is no error. -/
theorem c3_validate_value_short_circuits :
    (∀ (pre post : List Validator) (val : Validator) (pv : PyVal),
        (∀ u ∈ pre, u.isForm = true ∨ u.check pv = true) →
        val.isForm = false → val.check pv = false →
        validate_value (pre ++ val :: post) pv
          = Option.some ⟨val.codeAfter pv, val.message⟩)
  ∧ (∀ (vs : List Validator) (pv : PyVal),
        (∀ u ∈ vs, u.isForm = true ∨ u.check pv = true) →
        validate_value vs pv = Option.none) := by
  constructor
  · intro pre
    induction pre with
    | nil =>
      intro post val pv _ hform hcheck
      simp [validate_value, hform, hcheck]
    | cons u rest ih =>
      intro post val pv hpre hform hcheck
      have hu := hpre u (by simp)
      have hrest : ∀ w ∈ rest, w.isForm = true ∨ w.check pv = true :=
        fun w hw => hpre w (by simp [hw])
      by_cases hf : u.isForm
      · simpa [validate_value, hf] using ih post val pv hrest hform hcheck
      · rcases hu with hu | hu
        · exact absurd hu (by simp [hf])
        · simpa [validate_value, hf, hu] using ih post val pv hrest hform hcheck
  · intro vs
    induction vs with
    | nil => intro pv _; rfl
    | cons u rest ih =>
      intro pv hall
      have hu := hall u (by simp)
      have hrest : ∀ w ∈ rest, w.isForm = true ∨ w.check pv = true :=
        fun w hw => hall w (by simp [hw])
      by_cases hf : u.isForm
      · simpa [validate_value, hf] using ih pv hrest
      · rcases hu with hu | hu
        · exact absurd hu (by simp [hf])
        · simpa [validate_value, hf, hu] using ih pv hrest

/-- Witness for C3: a form-level validator is skipped, the failing
Required validator is recorded with its own code and message and the later
IsNumber validator does not matter; a passing chain gives no error. -/
theorem c3_validate_value_short_circuits_witness :
    (∀ u ∈ [sampleFormValidator], u.isForm = true ∨ u.check (PyVal.str "") = true)
  ∧ requiredValidator.isForm = false
  ∧ requiredValidator.check (PyVal.str "") = false
  ∧ validate_value [sampleFormValidator, requiredValidator, isNumberValidator] (PyVal.str "")
        = Option.some ⟨"required", "This field is required."⟩
  ∧ (∀ u ∈ [requiredValidator, isNumberValidator],
        u.isForm = true ∨ u.check (PyVal.str "5") = true)
  ∧ validate_value [requiredValidator, isNumberValidator] (PyVal.str "5") = Option.none :=
  ⟨by decide, rfl, by decide,
   c3_validate_value_short_circuits.1 [sampleFormValidator] [isNumberValidator]
     requiredValidator (PyVal.str "") (by decide) rfl (by decide),
   by decide,
   c3_validate_value_short_circuits.2 [requiredValidator, isNumberValidator]
     (PyVal.str "5") (by decide)⟩

/-- C4: for a File field with an injected upload callback and a present
raw value, a raising callback makes coercion yield the value
`ValidationError(invalid_file, str(e))` instead of None, and value-level
validation stores exactly that error — no matter which validators the
field has, so none of them runs; a succeeding callback passes its return
value through as the coerced value. -/
theorem c4_file_upload_failure_short_circuits :
    (∀ (f : FieldState) (up : PyVal → Except String PyVal) (e : String),
        f.rawValue.truthy = true → up f.rawValue = Except.error e →
        file_to_python f (Option.some up) = Except.ok (PyVal.verror "invalid_file" e))
  ∧ (∀ (f : FieldState) (up : PyVal → Except String PyVal) (w : PyVal),
        f.rawValue.truthy = true → up f.rawValue = Except.ok w →
        file_to_python f (Option.some up) = Except.ok w)
  ∧ (∀ (f : FieldState) (up : PyVal → Except String PyVal) (e : String),
        f.rawValue.truthy = true → up f.rawValue = Except.error e →
        (file_validate f (Option.some up)).map (fun g => g.error)
          = Except.ok (Option.some ⟨"invalid_file", e⟩)) := by
  refine ⟨?_, ?_, ?_⟩
  · intro f up e ht hu
    simp [file_to_python, ht, hu]
  · intro f up w ht hu
    simp [file_to_python, ht, hu]
  · intro f up e ht hu
    have hft : file_to_python f (Option.some up) = Except.ok (PyVal.verror "invalid_file" e) := by
      simp [file_to_python, ht, hu]
    simp [file_validate, hft, validate, PyVal.truthy, Except.map]

/-- Witness for C4 on a concrete File field, with one failing and one
succeeding callback. -/
theorem c4_file_upload_failure_short_circuits_witness :
    c4Field.rawValue.truthy = true
  ∧ failingUpload c4Field.rawValue = Except.error "disk full"
  ∧ okUpload c4Field.rawValue = Except.ok (PyVal.str "photo.png")
  ∧ file_to_python c4Field (Option.some failingUpload)
        = Except.ok (PyVal.verror "invalid_file" "disk full")
  ∧ file_to_python c4Field (Option.some okUpload) = Except.ok (PyVal.str "photo.png")
  ∧ (file_validate c4Field (Option.some failingUpload)).map (fun g => g.error)
        = Except.ok (Option.some ⟨"invalid_file", "disk full"⟩) :=
  ⟨by decide, rfl, rfl,
   c4_file_upload_failure_short_circuits.1 c4Field failingUpload "disk full" (by decide) rfl,
   c4_file_upload_failure_short_circuits.2.1 c4Field okUpload (PyVal.str "photo.png")
     (by decide) rfl,
   c4_file_upload_failure_short_circuits.2.2 c4Field failingUpload "disk full"
     (by decide) rfl⟩

/-- C5: the claim states that Color coercion normalizes well-formed colors
to canonical lowercase form.  The code violates this: `_Color.to_python`
is defined with no parameters, so every call raises TypeError and no
normalization ever runs.  The normalization helpers themselves, called
directly, do behave as the claim lists — this theorem records both the
raising call at the concrete input and the helper values. -/
theorem c5_color_coercion_raises_yet_helpers_normalize :
    color_validate (mkFieldState (PyVal.str "#abc") [] true)
        = Except.error (PyExc.typeError "to_python() takes no arguments (1 given)")
  ∧ normalize_hex "abc" = Option.some "#aabbcc"
  ∧ normalize_hex "abcd" = Option.some "#aabbccdd"
  ∧ normalize_rgb "255" "0" "0" Option.none = Option.some "#ff0000"
  ∧ normalize_rgb "256" "0" "0" Option.none = Option.none :=
  ⟨rfl, by decide, by decide, by decide, by decide⟩

/-- C6 counterexample: the claim says every assignment normalizes the raw
value to a trimmed string or a list of strings, with null stored as the
empty string, for every variant including SelectMulti and Collection.  But
the SelectMulti setter stores null as the singleton list containing null —
neither a trimmed string, nor a list of strings, nor the empty string —
and the Collection setter raises TypeError on null. -/
theorem c6_selectmulti_null_counterexample :
    selectmulti_set_value PyVal.none = PyVal.listV [PyVal.none]
  ∧ ¬ isTrimmedStr (selectmulti_set_value PyVal.none)
  ∧ isStrList (selectmulti_set_value PyVal.none) = false
  ∧ selectmulti_set_value PyVal.none ≠ PyVal.str ""
  ∧ collection_set_value PyVal.none
        = Except.error (PyExc.typeError "NoneType object is not iterable") := by
  refine ⟨rfl, ?_, rfl, ?_, rfl⟩
  · rintro ⟨t, ht⟩
    rw [show selectmulti_set_value PyVal.none = PyVal.listV [PyVal.none] from rfl] at ht
    exact PyVal.noConfusion ht
  · intro hh
    rw [show selectmulti_set_value PyVal.none = PyVal.listV [PyVal.none] from rfl] at hh
    exact PyVal.noConfusion hh

/-- C6 amended: the base single-valued setter does establish the invariant
— for a string, a list of strings, or null, the stored raw value is a
trimmed string, and null is stored as the empty string.  The multi-valued
variants do not share it: SelectMulti wraps any non-list input (null
included) in a singleton list without trimming, and Collection stores
`list(input)` — for a string, the list of its characters — and raises
TypeError on null. -/
theorem c6_set_value_normalization_amended (input : PyVal) (h : isRawInput input = true) :
    isTrimmedStr (set_value input)
  ∧ set_value PyVal.none = PyVal.str ""
  ∧ selectmulti_set_value PyVal.none = PyVal.listV [PyVal.none]
  ∧ (∀ xs, input = PyVal.listV xs → selectmulti_set_value input = PyVal.listV xs)
  ∧ (∀ s, input = PyVal.str s →
        selectmulti_set_value input = PyVal.listV [PyVal.str s]
        ∧ collection_set_value input = Except.ok (PyVal.listV (charsOf s)))
  ∧ collection_set_value PyVal.none
        = Except.error (PyExc.typeError "NoneType object is not iterable") := by
  refine ⟨?_, rfl, rfl, ?_, ?_, rfl⟩
  · cases input with
    | str s => exact ⟨s, rfl⟩
    | none => exact ⟨"", rfl⟩
    | listV xs =>
      cases xs with
      | nil => exact ⟨"", rfl⟩
      | cons x rest =>
        cases x with
        | str s0 => exact ⟨s0, rfl⟩
        | none => simp [isRawInput] at h
        | bool b => simp [isRawInput] at h
        | num m d => simp [isRawInput] at h
        | listV ys => simp [isRawInput] at h
        | verror c m => simp [isRawInput] at h
    | bool b => simp [isRawInput] at h
    | num m d => simp [isRawInput] at h
    | verror c m => simp [isRawInput] at h
  · intro xs hx
    rw [hx]
    exact rfl
  · intro s0 hs
    rw [hs]
    exact ⟨rfl, rfl⟩

/-- Witness for C6 amended at a concrete untrimmed raw string. -/
theorem c6_set_value_normalization_amended_witness :
    isRawInput (PyVal.str " a ") = true
  ∧ (isTrimmedStr (set_value (PyVal.str " a "))
      ∧ set_value PyVal.none = PyVal.str ""
      ∧ selectmulti_set_value PyVal.none = PyVal.listV [PyVal.none]
      ∧ (∀ xs, PyVal.str " a " = PyVal.listV xs →
            selectmulti_set_value (PyVal.str " a ") = PyVal.listV xs)
      ∧ (∀ s, PyVal.str " a " = PyVal.str s →
            selectmulti_set_value (PyVal.str " a ") = PyVal.listV [PyVal.str s]
            ∧ collection_set_value (PyVal.str " a ")
                = Except.ok (PyVal.listV (charsOf s)))
      ∧ collection_set_value PyVal.none
            = Except.error (PyExc.typeError "NoneType object is not iterable")) :=
  ⟨rfl, c6_set_value_normalization_amended (PyVal.str " a ") rfl⟩

/-- C7: HTML-attribute assembly is a deterministic pure function of the
keyword mapping — permuting the (distinct-key) association list does not
change the output — the output is the space-join of sorted attribute
strings followed by sorted bare properties, and the docstring example
mapping produces exactly the claimed string (class attribute with
collapsed whitespace, underscore turned into dash, boolean True as a bare
property after the attributes). -/
theorem c7_get_html_attrs_deterministic_sorted :
    get_html_attrs
          [("classes", AttrVal.str "foo bar"), ("data_id", AttrVal.int 1),
            ("checked", AttrVal.boolean true)]
        = "class=\"foo bar\" data-id=\"1\" checked"
  ∧ (∀ (k1 k2 : List (String × AttrVal)), k1.Perm k2 → (k1.map Prod.fst).Nodup →
        get_html_attrs k1 = get_html_attrs k2)
  ∧ (∀ k : List (String × AttrVal), ∃ attrs props : List String,
        List.Sorted strLe attrs ∧ List.Sorted strLe props ∧
        get_html_attrs k = String.intercalate " " (attrs ++ props)) := by
  refine ⟨by decide, ?_, ?_⟩
  · intro k1 k2 hp hnd
    have hlook : k1.lookup "classes" = k2.lookup "classes" :=
      lookup_eq_of_perm "classes" hp hnd
    have hcl : htmlClasses k1 = htmlClasses k2 := by
      unfold htmlClasses
      rw [hlook]
    have hrest : (htmlRest k1).Perm (htmlRest k2) := hp.filter _
    have hA : (htmlAttrs k1).Perm (htmlAttrs k2) := by
      unfold htmlAttrs
      rw [hcl]
      exact (hrest.filterMap _).append_left _
    have hP : (htmlProps k1).Perm (htmlProps k2) := hrest.filterMap _
    have hsA : List.insertionSort strLe (htmlAttrs k1)
        = List.insertionSort strLe (htmlAttrs k2) := by
      have hperm : (List.insertionSort strLe (htmlAttrs k1)).Perm
          (List.insertionSort strLe (htmlAttrs k2)) :=
        ((List.perm_insertionSort strLe _).trans hA).trans
          (List.perm_insertionSort strLe _).symm
      exact List.eq_of_perm_of_sorted hperm
        (List.sorted_insertionSort strLe _) (List.sorted_insertionSort strLe _)
    have hsP : List.insertionSort strLe (htmlProps k1)
        = List.insertionSort strLe (htmlProps k2) := by
      have hperm : (List.insertionSort strLe (htmlProps k1)).Perm
          (List.insertionSort strLe (htmlProps k2)) :=
        ((List.perm_insertionSort strLe _).trans hP).trans
          (List.perm_insertionSort strLe _).symm
      exact List.eq_of_perm_of_sorted hperm
        (List.sorted_insertionSort strLe _) (List.sorted_insertionSort strLe _)
    unfold get_html_attrs sortStrings
    rw [hsA, hsP]
  · intro k
    exact ⟨List.insertionSort strLe (htmlAttrs k), List.insertionSort strLe (htmlProps k),
      List.sorted_insertionSort strLe _, List.sorted_insertionSort strLe _, rfl⟩

/-- Witness for C7 at a concrete two-key mapping and its permutation. -/
theorem c7_get_html_attrs_deterministic_sorted_witness :
    ([("b_flag", AttrVal.boolean true), ("a", AttrVal.str "v")].Perm
        [("a", AttrVal.str "v"), ("b_flag", AttrVal.boolean true)])
  ∧ ([("b_flag", AttrVal.boolean true), ("a", AttrVal.str "v")].map Prod.fst).Nodup
  ∧ get_html_attrs [("b_flag", AttrVal.boolean true), ("a", AttrVal.str "v")]
        = get_html_attrs [("a", AttrVal.str "v"), ("b_flag", AttrVal.boolean true)] :=
  ⟨by decide, by decide,
   c7_get_html_attrs_deterministic_sorted.2.1 _ _ (by decide) (by decide)⟩

/-- C8: the claim says that loading the raw string with the letters a, b
and c around padded separators into a Collection field with the
comma-space separator yields the three-element list after cleaning.  The
code never splits: the setter stores `list(raw)` — seven one-character
strings — the inherited `to_python` returns that list unchanged, and
`clean_value` builds its separator regex but never applies it, so the
result is the character list, not the claimed three-element list. -/
theorem c8_collection_input_never_split :
    collection_set_value (PyVal.str "a, b ,c")
        = Except.ok (PyVal.listV (charsOf "a, b ,c"))
  ∧ field_to_python (mkCollectionFieldState "a, b ,c")
        = Except.ok (PyVal.listV (charsOf "a, b ,c"))
  ∧ collection_clean_value [] Option.none (PyVal.listV (charsOf "a, b ,c"))
        = PyVal.listV (charsOf "a, b ,c")
  ∧ charsOf "a, b ,c" ≠ [PyVal.str "a", PyVal.str "b", PyVal.str "c"] := by
  refine ⟨rfl, rfl, rfl, ?_⟩
  intro hcontra
  have hlen := congrArg List.length hcontra
  simp only [charsOf, List.length_map] at hlen
  exact absurd hlen (by decide)

/-- C9 counterexample: the claim says two instances made from the same
factory share no mutable state and that mutating attributes reachable from
one leaves the other unchanged.  A factory given an already-constructed
validator instance (such as an `InRange` object) hands the same object to
every instance it makes: both made fields reference heap address 0, and
mutating that shared object through the first field — as `InRange.__call__`
does to its own `code` attribute on a failed call — changes what the
second field observes. -/
theorem c9_factory_shared_instance_counterexample :
    (makeTwice ⟨[FactoryArg.inst 0], []⟩ ⟨[⟨"invalid", "Enter a number."⟩]⟩).1.validators
        = [0]
  ∧ (makeTwice ⟨[FactoryArg.inst 0], []⟩ ⟨[⟨"invalid", "Enter a number."⟩]⟩).2.1.validators
        = [0]
  ∧ FieldInst.observeCodes
        (makeTwice ⟨[FactoryArg.inst 0], []⟩ ⟨[⟨"invalid", "Enter a number."⟩]⟩).2.1
        (makeTwice ⟨[FactoryArg.inst 0], []⟩ ⟨[⟨"invalid", "Enter a number."⟩]⟩).2.2
        = [Option.some "invalid"]
  ∧ FieldInst.observeCodes
        (makeTwice ⟨[FactoryArg.inst 0], []⟩ ⟨[⟨"invalid", "Enter a number."⟩]⟩).2.1
        (Store.set
          (makeTwice ⟨[FactoryArg.inst 0], []⟩ ⟨[⟨"invalid", "Enter a number."⟩]⟩).2.2 0
          ⟨"too_small", "Enter a number."⟩)
        = [Option.some "too_small"] := by
  decide

/-- C9 amended: each `make()` call builds a brand-new field instance with
its own validators list and its own `extra` mapping, and when every factory
argument is a validator class the two instances reference disjoint, freshly
allocated validator objects — mutating a validator object of one instance
leaves everything the other observes unchanged.  Validator objects passed
to the factory as already-constructed instances are shared between the
instances (see the counterexample). -/
theorem c9_make_fresh_instances_amended (args : List FactoryArg)
    (kwargs : List (String × String)) (s : Store) (h : allCls args = true) :
    (makeTwice ⟨args, kwargs⟩ s).1.extra = kwargs
  ∧ (makeTwice ⟨args, kwargs⟩ s).2.1.extra = kwargs
  ∧ (∀ a, a ∈ (makeTwice ⟨args, kwargs⟩ s).1.validators →
        a ∉ (makeTwice ⟨args, kwargs⟩ s).2.1.validators)
  ∧ (∀ a o, a ∈ (makeTwice ⟨args, kwargs⟩ s).1.validators →
        FieldInst.observeCodes (makeTwice ⟨args, kwargs⟩ s).2.1
            (Store.set (makeTwice ⟨args, kwargs⟩ s).2.2 a o)
          = FieldInst.observeCodes (makeTwice ⟨args, kwargs⟩ s).2.1
              (makeTwice ⟨args, kwargs⟩ s).2.2) := by
  obtain ⟨h1v, h1len⟩ := makeValidators_allCls args s h
  obtain ⟨h2v, _⟩ := makeValidators_allCls args (makeValidators args s).2 h
  have hm1 : (makeTwice ⟨args, kwargs⟩ s).1.validators
      = List.range' s.objs.length args.length := by
    simpa [makeTwice, Factory.make] using h1v
  have hm2 : (makeTwice ⟨args, kwargs⟩ s).2.1.validators
      = List.range' (s.objs.length + args.length) args.length := by
    simp only [makeTwice, Factory.make]
    rw [h2v, h1len]
  refine ⟨rfl, rfl, ?_, ?_⟩
  · intro a ha hb
    rw [hm1] at ha
    rw [hm2] at hb
    have h1 := List.mem_range'_1.mp ha
    have h2 := List.mem_range'_1.mp hb
    omega
  · intro a o ha
    rw [hm1] at ha
    have h1 := List.mem_range'_1.mp ha
    unfold FieldInst.observeCodes
    apply List.map_congr_left
    intro x hx
    rw [hm2] at hx
    have h2 := List.mem_range'_1.mp hx
    have hne : a ≠ x := by omega
    unfold Store.set
    rw [List.getElem?_set_ne hne]

/-- Witness for C9 amended: one class argument, a nonempty extra mapping,
the empty heap. -/
theorem c9_make_fresh_instances_amended_witness :
    allCls [FactoryArg.cls ⟨"invalid", "Enter a number."⟩] = true
  ∧ ((makeTwice ⟨[FactoryArg.cls ⟨"invalid", "Enter a number."⟩], [("tag", "x")]⟩
          ⟨[]⟩).1.extra = [("tag", "x")]
      ∧ (makeTwice ⟨[FactoryArg.cls ⟨"invalid", "Enter a number."⟩], [("tag", "x")]⟩
          ⟨[]⟩).2.1.extra = [("tag", "x")]
      ∧ (∀ a, a ∈ (makeTwice ⟨[FactoryArg.cls ⟨"invalid", "Enter a number."⟩],
              [("tag", "x")]⟩ ⟨[]⟩).1.validators →
            a ∉ (makeTwice ⟨[FactoryArg.cls ⟨"invalid", "Enter a number."⟩],
              [("tag", "x")]⟩ ⟨[]⟩).2.1.validators)
      ∧ (∀ a o, a ∈ (makeTwice ⟨[FactoryArg.cls ⟨"invalid", "Enter a number."⟩],
              [("tag", "x")]⟩ ⟨[]⟩).1.validators →
            FieldInst.observeCodes
                (makeTwice ⟨[FactoryArg.cls ⟨"invalid", "Enter a number."⟩],
                  [("tag", "x")]⟩ ⟨[]⟩).2.1
                (Store.set (makeTwice ⟨[FactoryArg.cls ⟨"invalid", "Enter a number."⟩],
                  [("tag", "x")]⟩ ⟨[]⟩).2.2 a o)
              = FieldInst.observeCodes
                  (makeTwice ⟨[FactoryArg.cls ⟨"invalid", "Enter a number."⟩],
                    [("tag", "x")]⟩ ⟨[]⟩).2.1
                  (makeTwice ⟨[FactoryArg.cls ⟨"invalid", "Enter a number."⟩],
                    [("tag", "x")]⟩ ⟨[]⟩).2.2)) :=
  ⟨rfl, c9_make_fresh_instances_amended _ _ _ rfl⟩

/-- C10: whenever `to_python()` returns a falsy value, value-level
validation discards it — the whole run equals a run whose coercion
returned None, so the stored `python_value` (the original value) is what
gets cleaned and validated — and validation never writes the coerced value
back into `python_value`. -/
theorem c10_falsy_coercion_discarded :
    (∀ (f : FieldState) (tp : PyVal) (cv : PyVal → PyVal), tp.truthy = false →
        validate f (Except.ok tp) cv = validate f (Except.ok PyVal.none) cv)
  ∧ (∀ (f : FieldState) (r : Except PyExc PyVal) (cv : PyVal → PyVal) (g : FieldState),
        validate f r cv = Except.ok g → g.pythonValue = f.pythonValue) := by
  constructor
  · intro f tp cv h
    simp only [validate]
    rw [h]
    simp [PyVal.truthy]
  · intro f r cv g hok
    cases r with
    | error e => simp [validate] at hok
    | ok tp =>
      simp only [validate] at hok
      repeat' split at hok
      all_goals injection hok with hg
      all_goals rw [← hg]

/-- Witness for C10: a required Number field loaded with the raw string 0
— coercion yields the float zero, which is falsy — validates exactly as if
coercion had returned None, against the stored original value, and its
`python_value` is unchanged afterwards. -/
theorem c10_falsy_coercion_discarded_witness :
    (PyVal.num 0 0).truthy = false
  ∧ number_to_python c10SampleField = Except.ok (PyVal.num 0 0)
  ∧ validate c10SampleField (Except.ok (PyVal.num 0 0)) id
        = validate c10SampleField (Except.ok PyVal.none) id
  ∧ validate c10SampleField (Except.ok (PyVal.num 0 0)) id = Except.ok c10Result
  ∧ c10Result.pythonValue = c10SampleField.pythonValue :=
  ⟨by decide, rfl,
   c10_falsy_coercion_discarded.1 c10SampleField (PyVal.num 0 0) id (by decide),
   rfl,
   c10_falsy_coercion_discarded.2 c10SampleField (Except.ok (PyVal.num 0 0)) id
     c10Result rfl⟩

end Forms
